import Mathlib

/-!
Verification of the support-ticket service in `app/routes/app._index.jsx`.

The file embeds the `loader` and `action` route handlers shallowly:
ticket records become a structure, the Prisma-backed ticket store becomes
an explicit `Store` state threaded through the operations, and request
form data becomes a `Req` record of optional fields (a JavaScript
`formData.get` returns `null` for an absent field, embedded as `none`).
The store itself (`db.ticket.*`) lives outside the route module, so its
operations are modelled from the specification's Store contract.
-/

/-- Ticket status enum: `OPEN` or `FULFILLED`, as stored in the `status`
column and written by the `mark_done` branch of `action`. -/
inductive Status where
  | OPEN
  | FULFILLED
deriving DecidableEq

/-- Inquiry category enum: the four values the auto-detection block of
`action` can assign: `Sales`, `Technical`, `Logistics` or the default
`General`. -/
inductive Inquiry where
  | Sales
  | Technical
  | Logistics
  | General
deriving DecidableEq

/-- A persisted ticket record, shape `{ id, title, description?, status,
inquiry, createdAt }`. `description` is nullable, hence `Option`.
Identifiers and timestamps are embedded as naturals. -/
structure Ticket where
  id : Nat
  title : String
  description : Option String
  status : Status
  inquiry : Inquiry
  createdAt : Nat
deriving DecidableEq

/-- Modelled from the spec: the Ticket Store is an external collaborator
(`db.server` / Prisma); its state is the collection of persisted tickets
plus the fresh-identifier source the spec requires (`id` is generated by
the Store on creation, unique and never reassigned). A single counter
supplies both the fresh `id` and a monotone `createdAt` timestamp. -/
structure Store where
  tickets : List Ticket
  nextId : Nat
deriving DecidableEq

/-- The empty store: no tickets persisted yet. -/
def Store.empty : Store := { tickets := [], nextId := 0 }

/-- Embedding of JavaScript `String.prototype.toLowerCase` for the
character range the keyword rule uses: lower-case every character. -/
def toLowerCase (s : String) : String := ⟨s.data.map Char.toLower⟩

/-- Boolean test that `kw` occurs as a contiguous run inside `s`:
either `kw` is a prefix of `s`, or it occurs in the tail of `s`. -/
def hasSub (kw : List Char) : List Char → Bool
  | [] => kw.isEmpty
  | c :: rest => kw.isPrefixOf (c :: rest) || hasSub kw rest

/-- Embedding of JavaScript `String.prototype.includes`: substring
containment, not whole-word matching. -/
def includes (s kw : String) : Bool := hasSub kw.data s.data

/-- The auto-detect inquiry block of the create branch of `action`
(lines 73-83 of `app._index.jsx`): lower-case the title, then cascade
through the Sales, Technical and Logistics keyword tests, defaulting to
`General`. -/
def autoInquiry (title : String) : Inquiry :=
  let lowerTitle := toLowerCase title
  if includes lowerTitle "money" || includes lowerTitle "price" || includes lowerTitle "refund" then
    .Sales
  else if includes lowerTitle "error" || includes lowerTitle "bug" || includes lowerTitle "login" || includes lowerTitle "fail" then
    .Technical
  else if includes lowerTitle "ship" || includes lowerTitle "order" || includes lowerTitle "delivery" then
    .Logistics
  else
    .General

/-- The spec's own phrasing of the categorization rule, for comparison
with the code's `autoInquiry`: an ordered list of (category, keyword set)
pairs evaluated in sequence, first match wins, `General` as default. -/
def keywordPriority : List (Inquiry × List String) :=
  [(.Sales, ["money", "price", "refund"]),
   (.Technical, ["error", "bug", "login", "fail"]),
   (.Logistics, ["ship", "order", "delivery"])]

/-- The spec-side categorization: lower-case the title and return the
category of the first keyword set containing a substring of it. -/
def categorizeSpec (title : String) : Inquiry :=
  let lowerTitle := toLowerCase title
  match keywordPriority.find? (fun p => p.2.any (fun kw => includes lowerTitle kw)) with
  | some p => p.1
  | none => .General

/-- Store-level failures the spec names: `NotFound` for an absent `id`,
`PersistenceError` for an underlying store failure. -/
inductive StoreErr where
  | NotFound
  | PersistenceError
deriving DecidableEq

/-- A partial-field update payload for `Store.update`, mirroring the
Prisma `data` argument: `none` leaves the field unchanged, `some v` sets
it. The route's two update calls set `{title, description}` and
`{status}` respectively. -/
structure TicketData where
  title : Option String := none
  description : Option (Option String) := none
  status : Option Status := none

/-- Apply a partial-field update to one ticket; fields absent from the
payload, and always `id`, `inquiry` and `createdAt`, are untouched. -/
def applyData (d : TicketData) (t : Ticket) : Ticket :=
  { t with
    title := d.title.getD t.title
    description := d.description.getD t.description
    status := d.status.getD t.status }

/-- Modelled from the spec: `Store.Insert` (the `db.ticket.create` call)
assigns a fresh `id` and `createdAt`, persists the record and returns it
together with the new store state. -/
def Store.insert (s : Store) (title : String) (description : Option String)
    (status : Status) (inquiry : Inquiry) : Ticket × Store :=
  let t : Ticket :=
    { id := s.nextId, title := title, description := description,
      status := status, inquiry := inquiry, createdAt := s.nextId }
  (t, { tickets := t :: s.tickets, nextId := s.nextId + 1 })

/-- Modelled from the spec: `Store.Update` (the `db.ticket.update` call)
applies a partial-field update to the record whose `id` matches, or
fails with `NotFound` when the `id` (possibly absent, `none`) resolves
to no record. -/
def Store.update (s : Store) (id : Option Nat) (d : TicketData) : Except StoreErr Store :=
  if s.tickets.any (fun t => some t.id == id) then
    .ok { s with tickets := s.tickets.map (fun t => if some t.id == id then applyData d t else t) }
  else
    .error .NotFound

/-- Modelled from the spec: `Store.Delete` (the `db.ticket.delete` call)
removes the record whose `id` matches, or fails with `NotFound`. -/
def Store.delete (s : Store) (id : Option Nat) : Except StoreErr Store :=
  if s.tickets.any (fun t => some t.id == id) then
    .ok { s with tickets := s.tickets.filter (fun t => !(some t.id == id)) }
  else
    .error .NotFound

/-- Modelled from the spec: `Store.FindAll` (the `db.ticket.findMany`
call with `orderBy: { createdAt: 'desc' }`) returns every persisted
ticket sorted by `createdAt` descending. -/
def Store.findAll (s : Store) : List Ticket :=
  List.insertionSort (fun a b => b.createdAt ≤ a.createdAt) s.tickets

/-- Outcome of a store read attempt: the ticket list, or a failure.
`loader` consumes this; the `failing` flag models the store throwing. -/
def dbFindMany (s : Store) (failing : Bool) : Except StoreErr (List Ticket) :=
  if failing then .error .PersistenceError else .ok (Store.findAll s)

/-- The `loader` route handler: return the fetched tickets, and on any
store failure catch the error and return the empty list instead. -/
def loader (dbResult : Except StoreErr (List Ticket)) : List Ticket :=
  match dbResult with
  | .ok tickets => tickets
  | .error _ => []

/-- The form-data payload of an action request. `formData.get` yields
`null` for an absent field, embedded as `none`; the `id` field is kept
decoded as a natural. -/
structure Req where
  intent : Option String
  id : Option Nat
  title : Option String
  description : Option String
deriving DecidableEq

/-- What the `action` handler returns to the caller on the happy path:
`{ success: true }`, or the bare `null` of the empty-title early return. -/
inductive ActionResult where
  | success
  | nullResult
deriving DecidableEq

/-- The `action` route handler. Branch order as in the source: `delete`,
then `mark_done`, then `update`, then the create path guarded by the
falsy-title check `if (!title) return null`. A store failure leaves the
store unchanged and surfaces the error. -/
def action (s : Store) (req : Req) : Except StoreErr ActionResult × Store :=
  if req.intent == some "delete" then
    match Store.delete s req.id with
    | .ok s' => (.ok .success, s')
    | .error e => (.error e, s)
  else if req.intent == some "mark_done" then
    match Store.update s req.id { status := some .FULFILLED } with
    | .ok s' => (.ok .success, s')
    | .error e => (.error e, s)
  else if req.intent == some "update" then
    match Store.update s req.id { title := req.title, description := some req.description } with
    | .ok s' => (.ok .success, s')
    | .error e => (.error e, s)
  else
    match req.title with
    | none => (.ok .nullResult, s)
    | some t =>
      if t == "" then
        (.ok .nullResult, s)
      else
        (.ok .success, (Store.insert s t req.description .OPEN (autoInquiry t)).2)

/-- Decidable equality for `Except` results, so that concrete runs of
`action` can be checked by `decide`. -/
instance {e a : Type} [DecidableEq e] [DecidableEq a] : DecidableEq (Except e a) := fun x y =>
  match x, y with
  | .error e₁, .error e₂ =>
    if h : e₁ = e₂ then .isTrue (by rw [h]) else .isFalse (fun hc => h (Except.error.inj hc))
  | .error _, .ok _ => .isFalse (fun hc => Except.noConfusion hc)
  | .ok _, .error _ => .isFalse (fun hc => Except.noConfusion hc)
  | .ok a₁, .ok a₂ =>
    if h : a₁ = a₂ then .isTrue (by rw [h]) else .isFalse (fun hc => h (Except.ok.inj hc))

/-- Store states reachable from the empty store by action requests
(a failed request leaves the store component unchanged). -/
inductive Reachable : Store → Prop
  | init : Reachable Store.empty
  | step (s : Store) (req : Req) (s' : Store) :
      Reachable s → (action s req).2 = s' → Reachable s'

/-- Zero or more action requests applied in sequence: the multi-step
reachability relation between store states. -/
inductive Steps : Store → Store → Prop
  | refl (s : Store) : Steps s s
  | tail (s₁ s₂ : Store) (req : Req) (s₃ : Store) :
      Steps s₁ s₂ → (action s₂ req).2 = s₃ → Steps s₁ s₃

/-- A concrete one-ticket fixture: the OPEN ticket created first. -/
def tOpen : Ticket :=
  { id := 0, title := "Hi", description := none, status := .OPEN,
    inquiry := .General, createdAt := 0 }

/-- The same fixture ticket after a resolve: status FULFILLED. -/
def tDone : Ticket :=
  { id := 0, title := "Hi", description := none, status := .FULFILLED,
    inquiry := .General, createdAt := 0 }

/-- The fixture ticket after an update to a new title and description. -/
def tUpd : Ticket :=
  { id := 0, title := "New title", description := some "d2", status := .OPEN,
    inquiry := .General, createdAt := 0 }

/-- A store holding just the OPEN fixture ticket. -/
def sOpen : Store := { tickets := [tOpen], nextId := 1 }

/-- A store holding just the FULFILLED fixture ticket. -/
def sDone : Store := { tickets := [tDone], nextId := 1 }

/-- A store holding just the updated fixture ticket. -/
def sUpd : Store := { tickets := [tUpd], nextId := 1 }

/-- The concrete update request used by several witnesses. -/
def reqUpd : Req :=
  { intent := some "update", id := some 0, title := some "New title",
    description := some "d2" }

/-- The empty-title update request driving the C3 counterexample. -/
def reqEmptyTitle : Req :=
  { intent := some "update", id := some 0, title := some "", description := some "d" }

/-- The store reached by creating "Hi" and then updating it to an empty
title: it persists a ticket whose title is empty. -/
def sEmptyTitle : Store :=
  { tickets :=
      [{ id := 0, title := "", description := some "d", status := .OPEN,
         inquiry := .General, createdAt := 0 }],
    nextId := 1 }

/-- The id-allocation invariant the spec states for the Store: every
persisted ticket's id is below the fresh-id counter, and no two tickets
share an id. -/
def StoreInv (s : Store) : Prop :=
  (∀ t ∈ s.tickets, t.id < s.nextId) ∧ (s.tickets.map Ticket.id).Nodup

/-- The concrete mark-done request used by the C5 witness. -/
def reqMD : Req := { intent := some "mark_done", id := some 0, title := none, description := none }

/-- The concrete create request used to reach the fixture stores. -/
def reqHi : Req := { intent := some "create", id := none, title := some "Hi", description := none }

/-! ## Helper lemmas -/

theorem autoInquiry_eq_categorizeSpec (title : String) :
    autoInquiry title = categorizeSpec title := by
  simp only [autoInquiry, categorizeSpec, keywordPriority, List.find?,
    List.any_cons, List.any_nil, Bool.or_false, Bool.or_assoc]
  by_cases h1 : (includes (toLowerCase title) "money"
      || (includes (toLowerCase title) "price" || includes (toLowerCase title) "refund")) = true
  · simp [h1]
  · simp only [Bool.not_eq_true] at h1
    by_cases h2 : (includes (toLowerCase title) "error"
        || (includes (toLowerCase title) "bug"
          || (includes (toLowerCase title) "login" || includes (toLowerCase title) "fail"))) = true
    · simp [h1, h2]
    · simp only [Bool.not_eq_true] at h2
      by_cases h3 : (includes (toLowerCase title) "ship"
          || (includes (toLowerCase title) "order" || includes (toLowerCase title) "delivery")) = true
      · simp [h1, h2, h3]
      · simp only [Bool.not_eq_true] at h3
        simp [h1, h2, h3]

/-! ## Claim theorems -/

/-- Claim C1: the inquiry category computed at Create lower-cases the
title and tests substring containment against the fixed keyword sets in
priority order — Sales before Technical before Logistics before the
General default, first matching set winning — so the code's cascade
agrees with the spec's ordered keyword-priority-list rule everywhere,
and in particular "Refund my order please" resolves to Sales even though
it also contains the Logistics keyword "order". -/
theorem create_categorization_matches_priority_rule :
    (∀ title : String, autoInquiry title = categorizeSpec title) ∧
      autoInquiry "Refund my order please" = .Sales ∧
      includes (toLowerCase "Refund my order please") "order" = true :=
  ⟨autoInquiry_eq_categorizeSpec, by decide, by decide⟩

/-- Claim C9: the categorization rule is a total deterministic function
on titles: every title maps to one of the four categories, the four
categories are pairwise distinct, and equal titles always receive equal
categories. -/
theorem categorization_total_deterministic :
    (∀ title : String,
        autoInquiry title = .Sales ∨ autoInquiry title = .Technical ∨
        autoInquiry title = .Logistics ∨ autoInquiry title = .General) ∧
      ([Inquiry.Sales, .Technical, .Logistics, .General].Pairwise (· ≠ ·)) ∧
      (∀ t₁ t₂ : String, t₁ = t₂ → autoInquiry t₁ = autoInquiry t₂) := by
  refine ⟨fun title => ?_, by decide, fun t₁ t₂ h => by rw [h]⟩
  cases h : autoInquiry title <;> simp

/-- Witness for C9 at a concrete title. -/
theorem categorization_total_deterministic_witness :
    (autoInquiry "hello" = .Sales ∨ autoInquiry "hello" = .Technical ∨
      autoInquiry "hello" = .Logistics ∨ autoInquiry "hello" = .General) ∧
      autoInquiry "hello" = autoInquiry "hello" :=
  ⟨categorization_total_deterministic.1 "hello",
    categorization_total_deterministic.2.2 "hello" "hello" rfl⟩

theorem action_update_eq {s : Store} {req : Req}
    (hint : req.intent = some "update") :
    action s req =
      match Store.update s req.id { title := req.title, description := some req.description } with
      | .ok s' => (.ok .success, s')
      | .error e => (.error e, s) := by
  unfold action
  rw [hint, if_neg (by decide), if_neg (by decide), if_pos (by decide)]

theorem action_markdone_eq {s : Store} {req : Req}
    (hint : req.intent = some "mark_done") :
    action s req =
      match Store.update s req.id { status := some .FULFILLED } with
      | .ok s' => (.ok .success, s')
      | .error e => (.error e, s) := by
  unfold action
  rw [hint, if_neg (by decide), if_pos (by decide)]

theorem action_delete_eq {s : Store} {req : Req}
    (hint : req.intent = some "delete") :
    action s req =
      match Store.delete s req.id with
      | .ok s' => (.ok .success, s')
      | .error e => (.error e, s) := by
  unfold action
  rw [hint, if_pos (by decide)]

theorem action_create_eq {s : Store} {req : Req}
    (hd : req.intent ≠ some "delete") (hm : req.intent ≠ some "mark_done")
    (hu : req.intent ≠ some "update") :
    action s req =
      match req.title with
      | none => (.ok .nullResult, s)
      | some t =>
        if t == "" then (.ok .nullResult, s)
        else (.ok .success, (Store.insert s t req.description .OPEN (autoInquiry t)).2) := by
  unfold action
  rw [if_neg (by simp [hd]), if_neg (by simp [hm]), if_neg (by simp [hu])]

theorem Store.update_ok_inv {s : Store} {id : Option Nat} {d : TicketData} {s' : Store}
    (h : Store.update s id d = .ok s') :
    s'.tickets = s.tickets.map (fun t => if some t.id == id then applyData d t else t) ∧
    s'.nextId = s.nextId := by
  unfold Store.update at h
  split at h
  · cases h; exact ⟨rfl, rfl⟩
  · cases h

theorem Store.update_ok_of_exists (s : Store) (id : Option Nat) (d : TicketData)
    (h : ∃ t ∈ s.tickets, some t.id = id) :
    Store.update s id d =
      .ok { s with tickets := s.tickets.map (fun t => if some t.id == id then applyData d t else t) } := by
  unfold Store.update
  rw [if_pos]
  simpa only [List.any_eq_true, beq_iff_eq] using h

theorem Store.update_notFound (s : Store) (id : Option Nat) (d : TicketData)
    (h : ∀ t ∈ s.tickets, some t.id ≠ id) :
    Store.update s id d = .error .NotFound := by
  unfold Store.update
  rw [if_neg]
  simpa only [List.any_eq_true, beq_iff_eq, not_exists, not_and] using h

theorem Store.delete_ok_inv {s : Store} {id : Option Nat} {s' : Store}
    (h : Store.delete s id = .ok s') :
    s'.tickets = s.tickets.filter (fun t => !(some t.id == id)) ∧
    s'.nextId = s.nextId := by
  unfold Store.delete at h
  split at h
  · cases h; exact ⟨rfl, rfl⟩
  · cases h

theorem applyData_id (d : TicketData) (t : Ticket) : (applyData d t).id = t.id := rfl

theorem applyData_inquiry (d : TicketData) (t : Ticket) : (applyData d t).inquiry = t.inquiry := rfl

theorem applyData_createdAt (d : TicketData) (t : Ticket) : (applyData d t).createdAt = t.createdAt := rfl

/-- Claim C4: an `update` action that succeeds changes only the matched
ticket's `title` and `description`: the new ticket list is pointwise
related to the old one with `id`, `status`, `inquiry` and `createdAt`
all unchanged, every ticket whose `id` differs from the request's is
wholly unchanged, the list keeps its length, and the store's id counter
is untouched. -/
theorem update_changes_only_title_description {s : Store} {req : Req}
    {r : ActionResult} {s' : Store}
    (hint : req.intent = some "update")
    (hact : action s req = (.ok r, s')) :
    s'.nextId = s.nextId ∧ s'.tickets.length = s.tickets.length ∧
    List.Forall₂
      (fun t t' =>
        (t'.id = t.id ∧ t'.status = t.status ∧ t'.inquiry = t.inquiry ∧
          t'.createdAt = t.createdAt) ∧
        (some t.id ≠ req.id → t' = t))
      s.tickets s'.tickets := by
  rw [action_update_eq hint] at hact
  cases hupd : Store.update s req.id { title := req.title, description := some req.description } with
  | error e =>
    rw [hupd] at hact
    simp only [Prod.mk.injEq] at hact
    exact absurd hact.1 (by simp)
  | ok s₁ =>
    rw [hupd] at hact
    simp only [Prod.mk.injEq, Except.ok.injEq] at hact
    obtain ⟨-, hs⟩ := hact
    subst hs
    obtain ⟨hts, hnext⟩ := Store.update_ok_inv hupd
    refine ⟨hnext, by rw [hts, List.length_map], ?_⟩
    rw [hts]
    rw [List.forall₂_map_right_iff]
    rw [List.forall₂_same]
    intro t ht
    by_cases hid : (some t.id == req.id) = true
    · rw [if_pos hid]
      exact ⟨⟨applyData_id _ t, by simp [applyData], applyData_inquiry _ t, applyData_createdAt _ t⟩,
        fun hne => absurd (by simpa using hid) hne⟩
    · rw [if_neg hid]
      exact ⟨⟨rfl, rfl, rfl, rfl⟩, fun _ => rfl⟩

/-- Witness for C4: updating the single ticket of a one-ticket store. -/
theorem update_changes_only_title_description_witness :
    sUpd.nextId = sOpen.nextId ∧ sUpd.tickets.length = sOpen.tickets.length ∧
    List.Forall₂
      (fun t t' =>
        (t'.id = t.id ∧ t'.status = t.status ∧ t'.inquiry = t.inquiry ∧
          t'.createdAt = t.createdAt) ∧
        (some t.id ≠ reqUpd.id → t' = t))
      sOpen.tickets sUpd.tickets :=
  update_changes_only_title_description rfl
    (show action sOpen reqUpd = (.ok .success, sUpd) by decide)

/-- Claim C8: an `update` or `mark_done` (Resolve) request whose `id`
resolves to no existing ticket fails with the discrete `NotFound` error
and leaves the store state unchanged. -/
theorem update_resolve_notfound {s : Store} {req : Req}
    (hint : req.intent = some "update" ∨ req.intent = some "mark_done")
    (habs : ∀ t ∈ s.tickets, some t.id ≠ req.id) :
    action s req = (.error .NotFound, s) := by
  rcases hint with h | h
  · rw [action_update_eq h, Store.update_notFound s req.id _ habs]
  · rw [action_markdone_eq h, Store.update_notFound s req.id _ habs]

/-- Witness for C8: resolving an id absent from a one-ticket store. -/
theorem update_resolve_notfound_witness :
    action sOpen { intent := some "mark_done", id := some 7, title := none, description := none } =
      (.error .NotFound, sOpen) :=
  update_resolve_notfound (Or.inr rfl) (by decide)

/-- Claim C2 counterexample: the create branch only rejects a falsy
title (`if (!title) return null`) and performs no trimming, so a
whitespace-only title `" "` — which is empty after trimming — is not a
no-op: a new record is persisted and the store count grows from 0 to 1. -/
theorem create_whitespace_title_counterexample :
    action Store.empty { intent := some "create", id := none, title := some " ", description := none } =
      (.ok .success,
        { tickets :=
            [{ id := 0, title := " ", description := none, status := .OPEN,
               inquiry := .General, createdAt := 0 }],
          nextId := 1 }) ∧
    Store.empty.tickets.length = 0 ∧
    (action Store.empty { intent := some "create", id := none, title := some " ", description := none }).2.tickets.length = 1 :=
  ⟨by decide, rfl, by decide⟩

/-- Claim C2 (amended): for every Create call whose title is absent or
is the empty string (JavaScript-falsy — no trimming is performed), the
operation is a no-op: the store, and hence its record count, is
unchanged, and the non-error `null` result is returned. A
whitespace-only title is truthy and does create a record. -/
theorem create_falsy_title_noop {s : Store} {req : Req}
    (hint : req.intent = some "create")
    (htitle : req.title = none ∨ req.title = some "") :
    action s req = (.ok .nullResult, s) := by
  rw [action_create_eq (by rw [hint]; decide) (by rw [hint]; decide) (by rw [hint]; decide)]
  rcases htitle with h | h
  · rw [h]
  · rw [h]
    rfl

/-- Witness for C2 (amended): creating with an empty title on the
one-ticket store is a no-op. -/
theorem create_falsy_title_noop_witness :
    action sOpen { intent := some "create", id := none, title := some "", description := none } =
      (.ok .nullResult, sOpen) :=
  create_falsy_title_noop rfl (Or.inr rfl)

/-- Claim C3 counterexample: the update branch performs no title
validation (`data: { title, description }` is written as given), so from
the empty store a Create followed by Update(id, "", "d") reaches a store
persisting a ticket with empty title. -/
theorem empty_title_persisted_counterexample :
    Reachable sEmptyTitle ∧
      sEmptyTitle.tickets.any (fun t => t.title == "") = true :=
  ⟨Reachable.step sOpen reqEmptyTitle sEmptyTitle
      (Reachable.step Store.empty
        { intent := some "create", id := none, title := some "Hi", description := none }
        sOpen Reachable.init (by decide))
      (by decide),
    by decide⟩

/-- Claim C3 (amended): Create, Resolve and Delete never introduce an
empty-titled ticket — any action other than an `update` preserves the
no-empty-title invariant (creation with a falsy title is a silent
no-op) — but an `update` action carrying an empty title does persist an
empty-titled ticket, so the invariant does not hold of every operation. -/
theorem no_empty_title_except_update {s : Store} {req : Req}
    (hu : req.intent ≠ some "update")
    (hinv : ∀ t ∈ s.tickets, t.title ≠ "") :
    ∀ t' ∈ (action s req).2.tickets, t'.title ≠ "" := by
  by_cases hd : req.intent = some "delete"
  · cases hdel : Store.delete s req.id with
    | ok s₁ =>
      simp only [action_delete_eq hd, hdel]
      intro t' ht'
      rw [(Store.delete_ok_inv hdel).1] at ht'
      exact hinv t' (List.mem_of_mem_filter ht')
    | error e =>
      simp only [action_delete_eq hd, hdel]
      exact hinv
  · by_cases hm : req.intent = some "mark_done"
    · cases hupd : Store.update s req.id { status := some .FULFILLED } with
      | ok s₁ =>
        simp only [action_markdone_eq hm, hupd]
        intro t' ht'
        rw [(Store.update_ok_inv hupd).1] at ht'
        obtain ⟨a, ha, hfa⟩ := List.mem_map.mp ht'
        by_cases hid : (some a.id == req.id) = true
        · rw [if_pos hid] at hfa
          rw [← hfa]
          show a.title ≠ ""
          exact hinv a ha
        · rw [if_neg hid] at hfa
          rw [← hfa]
          exact hinv a ha
      | error e =>
        simp only [action_markdone_eq hm, hupd]
        exact hinv
    · rw [action_create_eq hd hm hu]
      intro t' ht'
      split at ht'
      · exact hinv t' ht'
      · split at ht'
        · exact hinv t' ht'
        · rename_i t heq hne
          simp only [Store.insert, List.mem_cons] at ht'
          rcases ht' with h | h
          · rw [h]
            show t ≠ ""
            simpa using hne
          · exact hinv t' h

/-- Witness for C3 (amended): resolving the fixture ticket keeps its
title non-empty. -/
theorem no_empty_title_except_update_witness :
    tDone.title ≠ "" :=
  @no_empty_title_except_update sOpen reqMD (by decide) (by decide) tDone (by decide)

theorem action_create_some {s : Store} {req : Req} {t : String}
    (hd : req.intent ≠ some "delete") (hm : req.intent ≠ some "mark_done")
    (hu : req.intent ≠ some "update") (ht : req.title = some t) (hne : t ≠ "") :
    action s req = (.ok .success, (Store.insert s t req.description .OPEN (autoInquiry t)).2) := by
  rw [action_create_eq hd hm hu]
  split
  · rename_i heq
    rw [ht] at heq
    cases heq
  · rename_i t₂ heq
    rw [ht] at heq
    cases heq
    rw [if_neg (by simpa using hne)]

/-- Claim C10: an action request whose intent is not "delete",
"mark_done" or "update" — unknown or absent intents included — falls
through to the create branch: it behaves exactly as if the intent had
been "create", and when the title is a non-empty string a new OPEN
ticket with the derived inquiry is persisted. -/
theorem unknown_intent_falls_through_to_create {s : Store} {req : Req}
    (hd : req.intent ≠ some "delete") (hm : req.intent ≠ some "mark_done")
    (hu : req.intent ≠ some "update") :
    action s req = action s { req with intent := some "create" } ∧
    ∀ t : String, req.title = some t → t ≠ "" →
      action s req = (.ok .success, (Store.insert s t req.description .OPEN (autoInquiry t)).2) := by
  constructor
  · rw [action_create_eq hd hm hu, action_create_eq (by simp) (by simp) (by simp)]
  · intro t ht hne
    exact action_create_some hd hm hu ht hne

/-- Witness for C10: a request with the unknown intent "bogus" and a
non-empty title creates the ticket, just as "create" would. -/
theorem unknown_intent_falls_through_to_create_witness :
    action Store.empty { intent := some "bogus", id := none, title := some "Hi", description := none } =
        action Store.empty { intent := some "create", id := none, title := some "Hi", description := none } ∧
      action Store.empty { intent := some "bogus", id := none, title := some "Hi", description := none } =
        (.ok .success,
          (Store.insert Store.empty "Hi" none .OPEN (autoInquiry "Hi")).2) := by
  have h := @unknown_intent_falls_through_to_create Store.empty
    { intent := some "bogus", id := none, title := some "Hi", description := none }
    (by simp) (by simp) (by simp)
  exact ⟨h.1, h.2 "Hi" rfl (by simp)⟩

/-- Claim C6: for every store state the read path returns all persisted
tickets sorted most-recently-created first (descending `createdAt`), and
concretely, after inserting T1 and then T2 from the empty store, the
listing is [T2, T1]. -/
theorem list_newest_first :
    (∀ s : Store,
        List.Sorted (fun a b : Ticket => b.createdAt ≤ a.createdAt) (loader (dbFindMany s false)) ∧
        List.Perm (loader (dbFindMany s false)) s.tickets) ∧
    loader (dbFindMany (Store.insert (Store.insert Store.empty "T1" none .OPEN .General).2 "T2" none .OPEN .General).2 false) =
      [(Store.insert (Store.insert Store.empty "T1" none .OPEN .General).2 "T2" none .OPEN .General).1,
        (Store.insert Store.empty "T1" none .OPEN .General).1] := by
  constructor
  · intro s
    haveI : IsTotal Ticket (fun a b : Ticket => b.createdAt ≤ a.createdAt) :=
      ⟨fun a b => le_total b.createdAt a.createdAt⟩
    haveI : IsTrans Ticket (fun a b : Ticket => b.createdAt ≤ a.createdAt) :=
      ⟨fun _ _ _ hab hbc => le_trans hbc hab⟩
    exact ⟨List.sorted_insertionSort _ s.tickets, List.perm_insertionSort _ s.tickets⟩
  · decide

/-- Claim C7: when the underlying store read fails, the loader catches
the failure and returns the empty list; no error reaches the caller,
whereas a successful read returns the fetched tickets unchanged. -/
theorem list_fail_soft :
    (∀ s : Store, loader (dbFindMany s true) = []) ∧
    (∀ e : StoreErr, loader (.error e) = []) ∧
    (∀ s : Store, loader (dbFindMany s false) = Store.findAll s) :=
  ⟨fun _ => rfl, fun _ => rfl, fun _ => rfl⟩

theorem Store.eq_of_parts {s₁ s₂ : Store}
    (h1 : s₁.tickets = s₂.tickets) (h2 : s₁.nextId = s₂.nextId) : s₁ = s₂ := by
  cases s₁
  cases s₂
  simp_all

theorem Store.update_ok_eq {s : Store} {id : Option Nat} {d : TicketData} {s' : Store}
    (h : Store.update s id d = .ok s') :
    s' = { s with tickets := s.tickets.map (fun t => if some t.id == id then applyData d t else t) } := by
  obtain ⟨hts, hnext⟩ := Store.update_ok_inv h
  exact Store.eq_of_parts hts hnext

theorem Store.delete_ok_eq {s : Store} {id : Option Nat} {s' : Store}
    (h : Store.delete s id = .ok s') :
    s' = { s with tickets := s.tickets.filter (fun t => !(some t.id == id)) } := by
  obtain ⟨hts, hnext⟩ := Store.delete_ok_inv h
  exact Store.eq_of_parts hts hnext

theorem action_snd_cases (s : Store) (req : Req) :
    (action s req).2 = s ∨
    (action s req).2 = { s with tickets := s.tickets.filter (fun t => !(some t.id == req.id)) } ∨
    (∃ d : TicketData, (d.status = none ∨ d.status = some .FULFILLED) ∧
      (action s req).2 =
        { s with tickets := s.tickets.map (fun t => if some t.id == req.id then applyData d t else t) }) ∨
    (∃ t : String, t ≠ "" ∧
      (action s req).2 = (Store.insert s t req.description .OPEN (autoInquiry t)).2) := by
  by_cases hd : req.intent = some "delete"
  · cases hdel : Store.delete s req.id with
    | ok s₁ =>
      right
      left
      simp only [action_delete_eq hd, hdel]
      exact Store.delete_ok_eq hdel
    | error e =>
      left
      simp only [action_delete_eq hd, hdel]
  · by_cases hm : req.intent = some "mark_done"
    · cases hupd : Store.update s req.id { status := some .FULFILLED } with
      | ok s₁ =>
        right
        right
        left
        refine ⟨{ status := some .FULFILLED }, Or.inr rfl, ?_⟩
        simp only [action_markdone_eq hm, hupd]
        exact Store.update_ok_eq hupd
      | error e =>
        left
        simp only [action_markdone_eq hm, hupd]
    · by_cases hu : req.intent = some "update"
      · cases hupd : Store.update s req.id { title := req.title, description := some req.description } with
        | ok s₁ =>
          right
          right
          left
          refine ⟨{ title := req.title, description := some req.description }, Or.inl rfl, ?_⟩
          simp only [action_update_eq hu, hupd]
          exact Store.update_ok_eq hupd
        | error e =>
          left
          simp only [action_update_eq hu, hupd]
      · rw [action_create_eq hd hm hu]
        split
        · left
          rfl
        · rename_i t heq
          by_cases he : (t == "") = true
          · left
            rw [if_pos he]
          · right
            right
            right
            rw [if_neg he]
            exact ⟨t, by simpa using he, rfl⟩

theorem applyData_preserves_id (req : Req) (d : TicketData) (a : Ticket) :
    (if some a.id == req.id then applyData d a else a).id = a.id := by
  by_cases hmatch : (some a.id == req.id) = true
  · rw [if_pos hmatch]
    exact applyData_id d a
  · rw [if_neg hmatch]

theorem fulfilled_step (s : Store) (req : Req) (i : Nat)
    (hlt : i < s.nextId)
    (hful : ∀ t ∈ s.tickets, t.id = i → t.status = .FULFILLED) :
    i < (action s req).2.nextId ∧
      ∀ t' ∈ (action s req).2.tickets, t'.id = i → t'.status = .FULFILLED := by
  rcases action_snd_cases s req with h | h | ⟨d, hd0, h⟩ | ⟨t, -, h⟩ <;> rw [h]
  · exact ⟨hlt, hful⟩
  · exact ⟨hlt, fun t' ht' => hful t' (List.mem_of_mem_filter ht')⟩
  · refine ⟨hlt, ?_⟩
    intro t' ht' hid
    obtain ⟨a, ha, hfa⟩ := List.mem_map.mp ht'
    have hids : t'.id = a.id := by
      rw [← hfa]
      exact applyData_preserves_id req d a
    by_cases hmatch : (some a.id == req.id) = true
    · rw [if_pos hmatch] at hfa
      rcases hd0 with h0 | h0
      · have : t'.status = a.status := by
          rw [← hfa]
          show d.status.getD a.status = a.status
          rw [h0]
          rfl
        rw [this]
        exact hful a ha (hids ▸ hid)
      · rw [← hfa]
        show d.status.getD a.status = .FULFILLED
        rw [h0]
        rfl
    · rw [if_neg hmatch] at hfa
      rw [← hfa]
      exact hful a ha (hids ▸ hid)
  · constructor
    · exact Nat.lt_succ_of_lt hlt
    · intro t' ht' hid
      simp only [Store.insert, List.mem_cons] at ht'
      rcases ht' with h1 | h1
      · exfalso
        rw [h1] at hid
        have : s.nextId = i := hid
        rw [this] at hlt
        exact lt_irrefl i hlt
      · exact hful t' h1 hid

theorem fulfilled_steps {s s' : Store} (hst : Steps s s') (i : Nat)
    (hlt : i < s.nextId)
    (hful : ∀ t ∈ s.tickets, t.id = i → t.status = .FULFILLED) :
    i < s'.nextId ∧ ∀ t' ∈ s'.tickets, t'.id = i → t'.status = .FULFILLED := by
  induction hst with
  | refl => exact ⟨hlt, hful⟩
  | tail s₂ req s₃ hsteps heq ih =>
    obtain ⟨h1, h2⟩ := ih
    have h3 := fulfilled_step s₂ req i h1 h2
    rw [heq] at h3
    exact h3

theorem storeInv_step (s : Store) (req : Req) (h : StoreInv s) :
    StoreInv (action s req).2 := by
  obtain ⟨hb, hnd⟩ := h
  rcases action_snd_cases s req with heq | heq | ⟨d, hd0, heq⟩ | ⟨t, -, heq⟩ <;> rw [heq]
  · exact ⟨hb, hnd⟩
  · constructor
    · intro t ht
      exact hb t (List.mem_of_mem_filter ht)
    · exact List.Nodup.sublist (List.Sublist.map Ticket.id (List.filter_sublist _)) hnd
  · constructor
    · intro t ht
      obtain ⟨a, ha, hfa⟩ := List.mem_map.mp ht
      have hids : t.id = a.id := by
        rw [← hfa]
        exact applyData_preserves_id req d a
      rw [hids]
      exact hb a ha
    · show ((s.tickets.map fun t => if some t.id == req.id then applyData d t else t).map Ticket.id).Nodup
      rw [List.map_map]
      have hfe : (Ticket.id ∘ fun t => if some t.id == req.id then applyData d t else t) = Ticket.id := by
        funext a
        exact applyData_preserves_id req d a
      rw [hfe]
      exact hnd
  · constructor
    · intro t' ht'
      simp only [Store.insert, List.mem_cons] at ht'
      rcases ht' with h1 | h1
      · rw [h1]
        exact Nat.lt_succ_self s.nextId
      · exact Nat.lt_succ_of_lt (hb t' h1)
    · simp only [Store.insert, List.map_cons, List.nodup_cons]
      constructor
      · intro hmem
        obtain ⟨a, ha, haid⟩ := List.mem_map.mp hmem
        have h2 := hb a ha
        rw [haid] at h2
        exact lt_irrefl _ h2
      · exact hnd

theorem reachable_storeInv {s : Store} (h : Reachable s) : StoreInv s := by
  induction h with
  | init =>
    refine ⟨?_, ?_⟩
    · intro t ht
      cases ht
    · exact List.nodup_nil
  | step s req s' hr heq ih =>
    rw [← heq]
    exact storeInv_step s req ih

theorem applyData_fulfilled_self {a : Ticket} (h : a.status = .FULFILLED) :
    applyData { status := some .FULFILLED } a = a := by
  cases a with
  | mk id title description status inquiry createdAt =>
    cases h
    rfl

/-- Claim C5: a `mark_done` (Resolve) on an existing ticket succeeds and
leaves every ticket with that id FULFILLED (so an OPEN ticket becomes
FULFILLED); resolving a ticket that is already FULFILLED is an exact
no-op on the store and still succeeds (idempotence, no error); and from
any reachable store, no sequence of subsequent operations ever takes a
FULFILLED ticket's status back: every later ticket carrying that id is
still FULFILLED. -/
theorem resolve_fulfilled_forever :
    (∀ (s : Store) (req : Req) (i : Nat),
        req.intent = some "mark_done" → req.id = some i →
        (∃ t ∈ s.tickets, t.id = i) →
        (action s req).1 = .ok .success ∧
          ∀ t' ∈ (action s req).2.tickets, t'.id = i → t'.status = .FULFILLED) ∧
    (∀ (s : Store) (req : Req) (i : Nat),
        req.intent = some "mark_done" → req.id = some i →
        (∃ t ∈ s.tickets, t.id = i) →
        (∀ t ∈ s.tickets, t.id = i → t.status = .FULFILLED) →
        action s req = (.ok .success, s)) ∧
    (∀ (s s' : Store) (tk : Ticket),
        Reachable s → tk ∈ s.tickets → tk.status = .FULFILLED → Steps s s' →
        ∀ t' ∈ s'.tickets, t'.id = tk.id → t'.status = .FULFILLED) := by
  refine ⟨?_, ?_, ?_⟩
  · intro s req i hint hid hex
    rw [action_markdone_eq hint,
      Store.update_ok_of_exists s req.id { status := some .FULFILLED }
        (by obtain ⟨t, ht, hti⟩ := hex; exact ⟨t, ht, by rw [hti, hid]⟩)]
    refine ⟨rfl, ?_⟩
    intro t' ht' htid
    obtain ⟨a, ha, hfa⟩ := List.mem_map.mp ht'
    by_cases hmatch : (some a.id == req.id) = true
    · rw [if_pos hmatch] at hfa
      rw [← hfa]
      rfl
    · rw [if_neg hmatch] at hfa
      exfalso
      apply hmatch
      rw [hfa, htid, hid]
      exact beq_self_eq_true (some i)
  · intro s req i hint hid hex hful
    rw [action_markdone_eq hint,
      Store.update_ok_of_exists s req.id { status := some .FULFILLED }
        (by obtain ⟨t, ht, hti⟩ := hex; exact ⟨t, ht, by rw [hti, hid]⟩)]
    have hmap : (s.tickets.map fun t =>
        if some t.id == req.id then applyData { status := some .FULFILLED } t else t) = s.tickets := by
      have hcongr : ∀ a ∈ s.tickets,
          (if some a.id == req.id then applyData { status := some .FULFILLED } a else a) = a := by
        intro a ha
        by_cases hmatch : (some a.id == req.id) = true
        · rw [if_pos hmatch]
          apply applyData_fulfilled_self
          apply hful a ha
          have h3 : some a.id = some i := by
            rw [hid] at hmatch
            exact beq_iff_eq.mp hmatch
          exact Option.some.inj h3
        · rw [if_neg hmatch]
      rw [List.map_congr_left hcongr]
      exact List.map_id' s.tickets
    rw [hmap]
  · intro s s' tk hreach hmem hful hsteps t' ht' hid
    obtain ⟨hb, hnd⟩ := reachable_storeInv hreach
    have hini : ∀ t ∈ s.tickets, t.id = tk.id → t.status = .FULFILLED := by
      intro t ht htid
      have heq : t = tk := List.inj_on_of_nodup_map hnd ht hmem htid
      rw [heq]
      exact hful
    exact (fulfilled_steps hsteps tk.id (hb tk hmem) hini).2 t' ht' hid

/-- Witness for C5: resolving the one OPEN fixture ticket succeeds and
fulfils it; resolving the already-FULFILLED fixture store is an exact
no-op; and along an empty sequence of steps from the reachable
FULFILLED fixture store the ticket stays FULFILLED. -/
theorem resolve_fulfilled_forever_witness :
    ((action sOpen reqMD).1 = .ok .success ∧ tDone.status = .FULFILLED) ∧
      action sDone reqMD = (.ok .success, sDone) ∧
      tDone.status = .FULFILLED := by
  have hreach : Reachable sDone :=
    Reachable.step sOpen reqMD sDone
      (Reachable.step Store.empty reqHi sOpen Reachable.init (by decide)) (by decide)
  refine ⟨⟨?_, ?_⟩, ?_, ?_⟩
  · exact (resolve_fulfilled_forever.1 sOpen reqMD 0 rfl rfl ⟨tOpen, by decide, rfl⟩).1
  · exact (resolve_fulfilled_forever.1 sOpen reqMD 0 rfl rfl ⟨tOpen, by decide, rfl⟩).2
      tDone (by decide) (by decide)
  · exact resolve_fulfilled_forever.2.1 sDone reqMD 0 rfl rfl ⟨tDone, by decide, rfl⟩
      (by intro t ht htid; rw [List.mem_singleton.mp ht]; rfl)
  · exact resolve_fulfilled_forever.2.2 sDone sDone tDone hreach (by decide) rfl
      (Steps.refl sDone) tDone (by decide) rfl
